import Mathlib

/-!
Verification of the vocabulary-app learning engine.

Shallow embedding of the engine's core functions:
* `lib/sm2.ts` — `calculateSM2`, `isDueForReview` (SM-2 spaced repetition);
* `lib/learning.ts` — `getWordsForReview`, `updateDailyStats`, the streak loop
  of `getUserStats`;
* `lib/cycles.ts` — `createNewCycle`, `insertCycleWords`,
  `checkAndCreateNewCycle` (split into its atomic read/act phases to reason
  about interleavings);
* `lib/catHappiness.ts` — `calculateCatHappiness` over a model of JS numbers
  that includes `NaN` and the infinities;
* `app/dashboard/learn/page.tsx` — the session-commit tail of `handleComplete`.

JS numeric values are modelled as rationals (`ℚ`); `Math.round x` is
`round x = ⌊x + 1/2⌋`, which matches JS `Math.round` exactly.  Timestamps are
milliseconds since the epoch (`ℕ`); calendar dates are day numbers (`ℤ`).
-/

/-! ### SM-2 scheduler (`lib/sm2.ts`) -/

/-- JS `Number(x.toFixed(2))`: round to two decimal places. -/
def roundTo2 (x : ℚ) : ℚ :=
  ((round (x * 100) : ℤ) : ℚ) / 100

/-- The two ease-factor clamps of `calculateSM2` (lines 67–74):
first raise to 1.3, then lower to 2.5. -/
def clampEase (e : ℚ) : ℚ :=
  let e1 := if e < 13/10 then 13/10 else e
  if e1 > 5/2 then 5/2 else e1

/-- The two interval clamps of `calculateSM2` (lines 77–84):
first cap at 365, then raise to 1. -/
def clampInterval (i : ℚ) : ℚ :=
  let i1 := if i > 365 then 365 else i
  if i1 < 1 then 1 else i1

/-- The raw ease-factor update of `calculateSM2` (line 64):
`EF + (0.1 - (5 - q) * (0.08 + (5 - q) * 0.02))`. -/
def sm2Ease (q ce : ℚ) : ℚ :=
  ce + (1/10 - (5 - q) * (8/100 + (5 - q) * (2/100)))

/-- Result record of `calculateSM2`.  `nextReviewDate` (today + interval days)
is handled by the dueness model below and carries no extra information. -/
structure SM2Result where
  easeFactor : ℚ
  interval : ℚ
  repetitions : ℚ
  deriving DecidableEq

/-- `calculateSM2` from `lib/sm2.ts` (lines 28–96).  The quality score is
clamped into [0,5] when out of range; quality < 3 resets repetitions and
interval; otherwise the interval is 1 / 6 / `round(interval * ease)` by prior
repetition count and the repetition count increments. -/
def calculateSM2 (qualityScore : ℚ) (currentEaseFactor : ℚ)
    (currentInterval : ℚ) (currentRepetitions : ℚ) : SM2Result :=
  let q := if qualityScore < 0 ∨ qualityScore > 5
    then max 0 (min 5 qualityScore) else qualityScore
  let ir : ℚ × ℚ :=
    if q < 3 then (1, 0)
    else
      (if currentRepetitions = 0 then 1
       else if currentRepetitions = 1 then 6
       else ((round (currentInterval * currentEaseFactor) : ℤ) : ℚ),
       currentRepetitions + 1)
  { easeFactor := roundTo2 (clampEase (sm2Ease q currentEaseFactor))
    interval := clampInterval ir.1
    repetitions := ir.2 }

/-! ### Due-word selection (`lib/sm2.ts` `isDueForReview`,
`lib/learning.ts` `getWordsForReview`) -/

/-- Milliseconds per day. -/
def msPerDay : ℕ := 86400000

/-- `setUTCHours(0,0,0,0)`: truncate an instant to the start of its UTC day. -/
def normalizeUTC (t : ℕ) : ℕ :=
  msPerDay * (t / msPerDay)

/-- The UTC calendar day of an instant. -/
def dayOf (t : ℕ) : ℕ :=
  t / msPerDay

/-- `isDueForReview` from `lib/sm2.ts` (lines 102–111): normalize both the
next review date and today to UTC midnight and compare. -/
def isDueForReview (nextReviewDate today : ℕ) : Bool :=
  decide (normalizeUTC nextReviewDate ≤ normalizeUTC today)

/-- `VocabularyWord` (`types/database`), restricted to the fields the engine
reads; the translation strings play no role in scheduling. -/
structure VocabularyWord where
  id : ℕ
  difficulty_level : ℕ
  deriving DecidableEq

/-- `UserProgress` (`types/database`), restricted to the fields the due-word
filter reads.  `next_review_date` is an `Option` because the filter in
`getWordsForReview` guards against a missing date. -/
structure UserProgress where
  word_id : ℕ
  next_review_date : Option ℕ
  repetitions : ℕ
  deriving DecidableEq

/-- The dueness filter of `getWordsForReview` from `lib/learning.ts`
(lines 103–135): a cycle word is kept when it has no progress record, or the
record has no next review date, or `isDueForReview` holds. -/
def getWordsForReview (cycleWords : List VocabularyWord)
    (progress : List UserProgress) (today : ℕ) : List VocabularyWord :=
  cycleWords.filter fun word =>
    match progress.find? (fun p => p.word_id == word.id) with
    | none => true
    | some wordProgress =>
      match wordProgress.next_review_date with
      | none => true
      | some d => isDueForReview d today

/-! ### JS number model and cat happiness (`lib/catHappiness.ts`) -/

/-- A JS `number` as used by `calculateCatHappiness`: `NaN`, the two
infinities, or a finite value (modelled as a rational). -/
inductive JsNum where
  | nan : JsNum
  | inf : JsNum
  | ninf : JsNum
  | fin : ℚ → JsNum
  deriving DecidableEq

/-- JS addition on the extended number line. -/
def jadd : JsNum → JsNum → JsNum
  | .nan, _ => .nan
  | _, .nan => .nan
  | .inf, .ninf => .nan
  | .ninf, .inf => .nan
  | .inf, _ => .inf
  | _, .inf => .inf
  | .ninf, _ => .ninf
  | _, .ninf => .ninf
  | .fin a, .fin b => .fin (a + b)

/-- JS negation. -/
def jneg : JsNum → JsNum
  | .nan => .nan
  | .inf => .ninf
  | .ninf => .inf
  | .fin a => .fin (-a)

/-- JS subtraction. -/
def jsub (a b : JsNum) : JsNum :=
  jadd a (jneg b)

/-- JS multiplication; `Infinity * 0 = NaN`. -/
def jmul : JsNum → JsNum → JsNum
  | .nan, _ => .nan
  | _, .nan => .nan
  | .inf, .inf => .inf
  | .inf, .ninf => .ninf
  | .ninf, .inf => .ninf
  | .ninf, .ninf => .inf
  | .inf, .fin b => if b = 0 then .nan else if b > 0 then .inf else .ninf
  | .fin a, .inf => if a = 0 then .nan else if a > 0 then .inf else .ninf
  | .ninf, .fin b => if b = 0 then .nan else if b > 0 then .ninf else .inf
  | .fin a, .ninf => if a = 0 then .nan else if a > 0 then .ninf else .inf
  | .fin a, .fin b => .fin (a * b)

/-- JS division; `0/0 = NaN`, `x/0 = ±Infinity` for `x ≠ 0`. -/
def jdiv : JsNum → JsNum → JsNum
  | .nan, _ => .nan
  | _, .nan => .nan
  | .inf, .inf => .nan
  | .inf, .ninf => .nan
  | .ninf, .inf => .nan
  | .ninf, .ninf => .nan
  | .inf, .fin b => if b < 0 then .ninf else .inf
  | .ninf, .fin b => if b < 0 then .inf else .ninf
  | .fin _, .inf => .fin 0
  | .fin _, .ninf => .fin 0
  | .fin a, .fin b =>
    if b = 0 then (if a = 0 then .nan else if a > 0 then .inf else .ninf)
    else .fin (a / b)

/-- JS `Math.min`: `NaN` is absorbing. -/
def jmin : JsNum → JsNum → JsNum
  | .nan, _ => .nan
  | _, .nan => .nan
  | .ninf, _ => .ninf
  | _, .ninf => .ninf
  | .inf, b => b
  | a, .inf => a
  | .fin a, .fin b => .fin (min a b)

/-- JS `Math.max`: `NaN` is absorbing. -/
def jmax : JsNum → JsNum → JsNum
  | .nan, _ => .nan
  | _, .nan => .nan
  | .inf, _ => .inf
  | _, .inf => .inf
  | .ninf, b => b
  | a, .ninf => a
  | .fin a, .fin b => .fin (max a b)

/-- JS `Math.round`. -/
def jround : JsNum → JsNum
  | .nan => .nan
  | .inf => .inf
  | .ninf => .ninf
  | .fin a => .fin ((round a : ℤ) : ℚ)

/-- JS `Math.abs`. -/
def jabs : JsNum → JsNum
  | .nan => .nan
  | .inf => .inf
  | .ninf => .inf
  | .fin a => .fin |a|

/-- JS `>=`: false whenever either side is `NaN`. -/
def jge : JsNum → JsNum → Bool
  | .nan, _ => false
  | _, .nan => false
  | .inf, _ => true
  | _, .inf => false
  | .ninf, .ninf => true
  | .ninf, _ => false
  | _, .ninf => true
  | .fin a, .fin b => decide (a ≥ b)

/-- JS `<=`: false whenever either side is `NaN`. -/
def jle : JsNum → JsNum → Bool
  | .nan, _ => false
  | _, .nan => false
  | .ninf, _ => true
  | _, .ninf => false
  | _, .inf => true
  | .inf, _ => false
  | .fin a, .fin b => decide (a ≤ b)

/-- The `UserProgress` interface local to `lib/catHappiness.ts` (named
`CatUserProgress` here to avoid clashing with the progress-record type). -/
structure CatUserProgress where
  wordsStudiedToday : JsNum
  targetWordsPerDay : JsNum
  streakDays : JsNum
  deriving DecidableEq

/-- `calculateSoloHappiness` from `lib/catHappiness.ts` (lines 39–58). -/
def calculateSoloHappiness (user : CatUserProgress) : JsNum :=
  let dailyProgress := jdiv user.wordsStudiedToday user.targetWordsPerDay
  let h1 := jadd (.fin 0) (jmin (.fin 60) (jmul dailyProgress (.fin 60)))
  let streakBonus := jmin (.fin 30) (jmul (jdiv user.streakDays (.fin 7)) (.fin 10))
  let h2 := jadd h1 streakBonus
  let h3 :=
    if jge user.wordsStudiedToday (jmul user.targetWordsPerDay (.fin (1/2)))
    then jadd h2 (.fin 10) else h2
  jround (jmin (.fin 100) (jmax (.fin 0) h3))

/-- `calculatePartnerHappiness` from `lib/catHappiness.ts` (lines 64–87). -/
def calculatePartnerHappiness (user partner : CatUserProgress) : JsNum :=
  let userProgress := jmul (jdiv user.wordsStudiedToday user.targetWordsPerDay) (.fin 40)
  let partnerProgress := jmul (jdiv partner.wordsStudiedToday partner.targetWordsPerDay) (.fin 40)
  let h1 := jadd (.fin 0) (jadd userProgress partnerProgress)
  let minStreak := jmin user.streakDays partner.streakDays
  let streakBonus := jmin (.fin 15) (jmul (jdiv minStreak (.fin 7)) (.fin 5))
  let h2 := jadd h1 streakBonus
  let progressDifference := jabs (jsub user.wordsStudiedToday partner.wordsStudiedToday)
  let h3 := if jle progressDifference (.fin 2) then jadd h2 (.fin 5) else h2
  jround (jmin (.fin 100) (jmax (.fin 0) h3))

/-- `calculateCatHappiness` from `lib/catHappiness.ts` (lines 23–33): solo
when no partner stats are given, else partner mode. -/
def calculateCatHappiness (user : CatUserProgress)
    (partner : Option CatUserProgress) : JsNum :=
  match partner with
  | none => calculateSoloHappiness user
  | some p => calculatePartnerHappiness user p

/-! ### Daily statistics and session commit (`lib/learning.ts`
`updateDailyStats`, `app/dashboard/learn/page.tsx` `handleComplete`) -/

/-- A `daily_stats` row. -/
structure DailyStat where
  user_id : ℕ
  date : ℤ
  words_reviewed : ℕ
  perfect_answers : ℕ
  completed_daily_goal : Bool
  deriving DecidableEq

/-- `updateDailyStats` from `lib/learning.ts` (lines 250–292): add to today's
row when one exists (the source locates the row by `user_id`/`date` and
updates it by its id; rows are keyed by user and date), else insert a fresh
row; the goal flag compares the day's cumulative count with 5. -/
def updateDailyStats (stats : List DailyStat) (userId : ℕ) (today : ℤ)
    (wordsReviewed : ℕ) (perfectAnswers : ℕ) : List DailyStat :=
  match stats.find? (fun s => s.user_id == userId && s.date == today) with
  | some existing =>
    stats.map fun s =>
      if s.user_id == userId && s.date == today then
        { s with
          words_reviewed := existing.words_reviewed + wordsReviewed
          perfect_answers := existing.perfect_answers + perfectAnswers
          completed_daily_goal := decide (existing.words_reviewed + wordsReviewed ≥ 5) }
      else s
  | none =>
    stats ++ [{ user_id := userId, date := today, words_reviewed := wordsReviewed,
                perfect_answers := perfectAnswers,
                completed_daily_goal := decide (wordsReviewed ≥ 5) }]

/-- The keys of the `wordQualities` record built by `handleComplete`:
word ids in first-appearance order, each once (JS object-key order). -/
def insertKeys (acc : List ℕ) : List (ℕ × ℕ) → List ℕ
  | [] => acc
  | (w, _) :: rest => insertKeys (if w ∈ acc then acc else acc ++ [w]) rest

/-- Distinct word ids of a session's activity results, in first-appearance
order.  A result is a `(wordId, quality)` pair. -/
def sessionWordIds (results : List (ℕ × ℕ)) : List ℕ :=
  insertKeys [] results

/-- The `wordProgressUpdates` list of `handleComplete`
(`app/dashboard/learn/page.tsx` lines 193–199): one entry per distinct word,
with the session's per-word qualities averaged and rounded. -/
def wordProgressUpdates (results : List (ℕ × ℕ)) : List (ℕ × ℤ) :=
  (sessionWordIds results).map fun w =>
    let qualities := (results.filter (fun r => r.1 == w)).map Prod.snd
    (w, round ((qualities.sum : ℚ) / qualities.length))

/-- The commit tail of `handleComplete` (lines 193–205): one
`updateWordProgress` upsert per entry of `wordProgressUpdates` (the returned
count), then `updateDailyStats(userId, wordProgressUpdates.length)` — the
perfect-answer argument is omitted and defaults to 0. -/
def commitSession (stats : List DailyStat) (userId : ℕ) (today : ℤ)
    (results : List (ℕ × ℕ)) : List DailyStat × ℕ :=
  let updates := wordProgressUpdates results
  (updateDailyStats stats userId today updates.length 0, updates.length)

/-- Read a learner's stat row for a day: (words reviewed, perfect answers,
goal met), with zeros when no row exists. -/
def statFor (stats : List DailyStat) (userId : ℕ) (today : ℤ) : ℕ × ℕ × Bool :=
  match stats.find? (fun s => s.user_id == userId && s.date == today) with
  | some s => (s.words_reviewed, s.perfect_answers, s.completed_daily_goal)
  | none => (0, 0, false)

/-! ### Streak computation (`lib/learning.ts` `getUserStats`, lines 323–347) -/

/-- The streak loop of `getUserStats`: fold over the stat rows (fetched in
descending date order); accumulator is (currentStreak, longestStreak,
tempStreak); `daysDiff` is whole days between today and the row's date. -/
def getUserStatsStreaks (today : ℤ) (allStats : List DailyStat) : ℤ × ℤ :=
  let r := allStats.foldl
    (fun acc stat =>
      let cs := acc.1
      let ls := acc.2.1
      let ts := acc.2.2
      if stat.completed_daily_goal then
        let daysDiff := today - stat.date
        if daysDiff = ts then
          let ts1 := ts + 1
          ((if daysDiff < 2 then ts1 else cs), max ls ts1, ts1)
        else (cs, ls, (0 : ℤ))
      else acc)
    ((0 : ℤ), (0 : ℤ), (0 : ℤ))
  (r.1, r.2.1)

/-- Whether some stat row marks the given day as goal-met. -/
def goalMetOn (stats : List DailyStat) (d : ℤ) : Bool :=
  stats.any fun s => s.date == d && s.completed_daily_goal

/-- Length of the consecutive run of goal-met days ending at `d`, counting
downwards; the fuel bounds the recursion by the number of stat rows. -/
def goalRunLength (stats : List DailyStat) : ℤ → ℕ → ℕ
  | _, 0 => 0
  | d, fuel + 1 => if goalMetOn stats d then goalRunLength stats (d - 1) fuel + 1 else 0

/-- The current streak as the spec words it (design notes, §9): the number of
consecutive goal-met calendar days ending at today or yesterday; a run that
ended earlier yields 0.  This definition follows the spec's words and is the
comparison point for the loop above. -/
def specCurrentStreak (today : ℤ) (stats : List DailyStat) : ℕ :=
  if goalMetOn stats today then goalRunLength stats today stats.length
  else if goalMetOn stats (today - 1) then goalRunLength stats (today - 1) stats.length
  else 0

/-! ### Cycle lifecycle (`lib/cycles.ts`) -/

/-- A `learning_cycles` row.  Dates are day numbers. -/
structure CycleRow where
  id : ℕ
  couple_id : ℕ
  cycle_number : ℕ
  start_date : ℤ
  end_date : ℤ
  is_active : Bool
  deriving DecidableEq

/-- A `cycle_words` row. -/
structure CycleWordRow where
  cycle_id : ℕ
  word_id : ℕ
  position : ℕ
  deriving DecidableEq

/-- The persistent store as the cycle code uses it: the `learning_cycles`,
`cycle_words` and `vocabulary_words` tables, and the set of couple ids that
already have a `cat_state` row.  The repository declares no uniqueness
constraint on cycles, so inserts always append. -/
structure Db where
  cycles : List CycleRow
  cycle_words : List CycleWordRow
  vocab : List VocabularyWord
  cat_couples : List ℕ
  deriving DecidableEq

/-- A fresh id for an inserted cycle row: one more than the largest id. -/
def freshCycleId (db : Db) : ℕ :=
  (db.cycles.map CycleRow.id).foldr max 0 + 1

/-- Stable insertion into a sorted list (insert before the first element the
new one compares `le` to). -/
def insertSorted {α : Type} (le : α → α → Bool) (a : α) : List α → List α
  | [] => [a]
  | b :: l => if le a b then a :: b :: l else b :: insertSorted le a l

/-- Stable sort; models a deterministic SQL `ORDER BY`. -/
def orderBy {α : Type} (le : α → α → Bool) : List α → List α
  | [] => []
  | a :: l => insertSorted le a (orderBy le l)

/-- `insertCycleWords` from `lib/cycles.ts` (lines 216–231): insert one
`cycle_words` row per picked word, positions `index + 1`. -/
def insertCycleWords (db : Db) (cycleId : ℕ) (words : List VocabularyWord) : Db :=
  { db with
    cycle_words := db.cycle_words ++
      words.enum.map fun p => { cycle_id := cycleId, word_id := p.2.id, position := p.1 + 1 } }

/-- The `recentWords` query of `createNewCycle` (lines 158–172): the word ids
of the last 3 cycles of the couple, by descending cycle number. -/
def recentWordIds (db : Db) (coupleId : ℕ) : List ℕ :=
  let recentCycleIds :=
    ((orderBy (fun a b => b.cycle_number ≤ a.cycle_number)
        (db.cycles.filter (fun c => c.couple_id == coupleId))).take 3).map CycleRow.id
  (db.cycle_words.filter (fun w => recentCycleIds.contains w.cycle_id)).map
    CycleWordRow.word_id

/-- The filtered word pick of `createNewCycle` (lines 174–185): up to 5 words
not used in the couple's recent cycles, by ascending difficulty (the `not in`
filter is only applied when the exclusion list is non-empty). -/
def pickNewWords (db : Db) (coupleId : ℕ) : List VocabularyWord :=
  let excludeIds := recentWordIds db coupleId
  let filtered :=
    if excludeIds.isEmpty then db.vocab
    else db.vocab.filter (fun v => !(excludeIds.contains v.id))
  (orderBy (fun a b => a.difficulty_level ≤ b.difficulty_level) filtered).take 5

/-- `createNewCycle` from `lib/cycles.ts` (lines 112–211), as a transformer
of the store.  Returns the store after the call together with `some` new
cycle id on success, or `none` when the function throws (empty vocabulary
pool) — the rows inserted before the throw remain in the store, since the
source runs each statement separately and has no transaction.  Steps, in
source order: insert the active cycle row; insert the `cat_state` row unless
one exists (duplicate inserts are ignored); collect the word ids of the last
3 cycles of the couple (the query runs after the insert, so the new,
still-empty cycle is among them); pick 5 words not in that set ordered by
ascending difficulty; if fewer than 5 were found fall back to an unfiltered
pick of 5, and throw when even that is empty.

`createNewCycleCore` is the tail of the function from the word selection on,
over the store `db2` as it stands after the cycle-row and `cat_state`
inserts. -/
def createNewCycleCore (db2 : Db) (coupleId : ℕ) (cid : ℕ) : Db × Option ℕ :=
  let newWords := pickNewWords db2 coupleId
  if newWords.length < 5 then
    let fallbackWords := db2.vocab.take 5
    if fallbackWords.length > 0 then (insertCycleWords db2 cid fallbackWords, some cid)
    else (db2, none)
  else (insertCycleWords db2 cid newWords, some cid)

/-- The full `createNewCycle`: the cycle-row insert, the idempotent
`cat_state` insert, then the word selection and insertion. -/
def createNewCycle (db : Db) (coupleId : ℕ) (cycleNumber : ℕ) (today : ℤ) :
    Db × Option ℕ :=
  let cid := freshCycleId db
  let db1 : Db :=
    { db with cycles := db.cycles ++
        [{ id := cid, couple_id := coupleId, cycle_number := cycleNumber,
           start_date := today, end_date := today + 2, is_active := true }] }
  let db2 : Db :=
    { db1 with cat_couples :=
        if coupleId ∈ db1.cat_couples then db1.cat_couples
        else db1.cat_couples ++ [coupleId] }
  createNewCycleCore db2 coupleId cid

/-- The first read of `checkAndCreateNewCycle` (lines 56–61): the couple's
active cycle, when one exists (`maybeSingle`; at most one row is expected). -/
def readActiveCycle (db : Db) (coupleId : ℕ) : Option CycleRow :=
  (db.cycles.filter (fun c => c.couple_id == coupleId && c.is_active)).head?

/-- The deactivation update of `checkAndCreateNewCycle` (lines 85–88). -/
def deactivateCycle (db : Db) (cycleId : ℕ) : Db :=
  { db with cycles := db.cycles.map fun c =>
      if c.id == cycleId then { c with is_active := false } else c }

/-- The write phase of `checkAndCreateNewCycle` (lines 68–102), acting on the
cycle it observed in its earlier read: create cycle #1 when none was active,
rotate (deactivate, then create the next number) when the observed one is
expired, and otherwise leave the store unchanged and return the observed id. -/
def ensureCycleAct (db : Db) (coupleId : ℕ) (today : ℤ)
    (observed : Option CycleRow) : Db × Option ℕ :=
  match observed with
  | none => createNewCycle db coupleId 1 today
  | some c =>
    if today > c.end_date then
      createNewCycle (deactivateCycle db c.id) coupleId (c.cycle_number + 1) today
    else (db, some c.id)

/-- State of two clients A and B running `checkAndCreateNewCycle`
concurrently against the shared store: each client's observation is `none`
until its read executes. -/
structure RaceState where
  db : Db
  obsA : Option (Option CycleRow)
  obsB : Option (Option CycleRow)
  deriving DecidableEq

/-- One atomic event of the interleaved execution: a client performs its read
or its write phase.  Each `await`ed statement of the source is atomic; the
write phase is grouped, which only removes interleavings. -/
inductive RaceEvent where
  | readA : RaceEvent
  | readB : RaceEvent
  | actA : RaceEvent
  | actB : RaceEvent
  deriving DecidableEq

/-- Execute one event of the interleaving. -/
def raceStep (coupleId : ℕ) (today : ℤ) (s : RaceState) : RaceEvent → RaceState
  | .readA => { s with obsA := some (readActiveCycle s.db coupleId) }
  | .readB => { s with obsB := some (readActiveCycle s.db coupleId) }
  | .actA =>
    match s.obsA with
    | some obs => { s with db := (ensureCycleAct s.db coupleId today obs).1 }
    | none => s
  | .actB =>
    match s.obsB with
    | some obs => { s with db := (ensureCycleAct s.db coupleId today obs).1 }
    | none => s

/-- Run a schedule of events over the shared store. -/
def runRace (coupleId : ℕ) (today : ℤ) (events : List RaceEvent)
    (s : RaceState) : RaceState :=
  events.foldl (raceStep coupleId today) s

/-- The couple's active cycles. -/
def activeCyclesFor (db : Db) (coupleId : ℕ) : List CycleRow :=
  db.cycles.filter fun c => c.couple_id == coupleId && c.is_active

/-! ### Helper lemmas -/

theorem rat_round_mono {x y : ℚ} (h : x ≤ y) : round x ≤ round y := by
  rw [round_eq, round_eq]
  exact Int.floor_mono (by linarith)

theorem roundTo2_mono {x y : ℚ} (h : x ≤ y) : roundTo2 x ≤ roundTo2 y := by
  unfold roundTo2
  have h1 : round (x * 100) ≤ round (y * 100) := rat_round_mono (by linarith)
  have h2 : ((round (x * 100) : ℤ) : ℚ) ≤ ((round (y * 100) : ℤ) : ℚ) := Int.cast_le.mpr h1
  linarith

theorem roundTo2_scaled_bounds (lo hi : ℤ) (x : ℚ) (h1 : (lo : ℚ)/100 ≤ x)
    (h2 : x ≤ (hi : ℚ)/100) : (lo : ℚ)/100 ≤ roundTo2 x ∧ roundTo2 x ≤ (hi : ℚ)/100 := by
  have hl : round ((lo : ℚ)) ≤ round (x * 100) := rat_round_mono (by linarith)
  have hh : round (x * 100) ≤ round ((hi : ℚ)) := rat_round_mono (by linarith)
  rw [round_intCast] at hl hh
  have hl2 : ((lo : ℤ) : ℚ) ≤ ((round (x * 100) : ℤ) : ℚ) := Int.cast_le.mpr hl
  have hh2 : ((round (x * 100) : ℤ) : ℚ) ≤ ((hi : ℤ) : ℚ) := Int.cast_le.mpr hh
  unfold roundTo2
  constructor <;> linarith

theorem clampEase_bounds (e : ℚ) : 13/10 ≤ clampEase e ∧ clampEase e ≤ 5/2 := by
  unfold clampEase
  dsimp only
  split_ifs <;> constructor <;> linarith

theorem clampEase_mono {x y : ℚ} (h : x ≤ y) : clampEase x ≤ clampEase y := by
  unfold clampEase
  dsimp only
  split_ifs <;> linarith

theorem clampInterval_bounds (i : ℚ) : 1 ≤ clampInterval i ∧ clampInterval i ≤ 365 := by
  unfold clampInterval
  dsimp only
  split_ifs <;> constructor <;> linarith

theorem clampInterval_eq (i : ℚ) : clampInterval i = min 365 (max 1 i) := by
  unfold clampInterval
  dsimp only
  split_ifs with h1 h2 <;> rw [min_def, max_def] <;> split_ifs <;> linarith

theorem sm2Ease_mono {ce q1 q2 : ℚ} (h12 : q1 ≤ q2) (h2 : q2 ≤ 5) :
    sm2Ease q1 ce ≤ sm2Ease q2 ce := by
  unfold sm2Ease
  nlinarith [sq_nonneg (q2 - q1), sq_nonneg (5 - q1), sq_nonneg (5 - q2)]

theorem calcQ_lt3_iff (q : ℚ) :
    (if q < 0 ∨ q > 5 then max 0 (min 5 q) else q) < 3 ↔ q < 3 := by
  split_ifs with h
  · rcases h with h | h
    · rw [min_eq_right (by linarith), max_eq_left (by linarith)]
      constructor <;> intro <;> linarith
    · rw [min_eq_left (by linarith), max_eq_right (by norm_num)]
      constructor <;> intro <;> linarith
  · rfl

theorem normalizeUTC_le_iff (a b : ℕ) : normalizeUTC a ≤ normalizeUTC b ↔ dayOf a ≤ dayOf b := by
  unfold normalizeUTC dayOf msPerDay
  omega

theorem le_foldr_max (l : List ℕ) : ∀ x ∈ l, x ≤ l.foldr max 0 := by
  induction l with
  | nil => intro x hx; cases hx
  | cons a l ih =>
    intro x hx
    rcases List.mem_cons.mp hx with h | h
    · rw [h, List.foldr_cons]
      exact le_max_left _ _
    · exact le_trans (ih x h) (by rw [List.foldr_cons]; exact le_max_right _ _)

theorem freshCycleId_not_mem (db : Db) : freshCycleId db ∉ db.cycles.map CycleRow.id := by
  unfold freshCycleId
  intro hmem
  have := le_foldr_max (db.cycles.map CycleRow.id) _ hmem
  omega

theorem length_insertSorted {α : Type} (le : α → α → Bool) (a : α) (l : List α) :
    (insertSorted le a l).length = l.length + 1 := by
  induction l with
  | nil => rfl
  | cons b l ih =>
    unfold insertSorted
    split_ifs <;> simp [ih]

theorem length_orderBy {α : Type} (le : α → α → Bool) (l : List α) :
    (orderBy le l).length = l.length := by
  induction l with
  | nil => rfl
  | cons a l ih =>
    unfold orderBy
    rw [length_insertSorted, ih, List.length_cons]

theorem enumFrom_map_pos {α : Type} (l : List α) :
    ∀ n : ℕ, (List.enumFrom n l).map (fun p => p.1 + 1) = List.range' (n + 1) l.length := by
  induction l with
  | nil => intro n; rfl
  | cons a l ih =>
    intro n
    rw [List.enumFrom, List.map_cons, List.length_cons, List.range'];
    rw [ih (n + 1)]

theorem insertCycleWords_positions (db : Db) (cid : ℕ) (ws : List VocabularyWord)
    (hfresh : ∀ w ∈ db.cycle_words, w.cycle_id ≠ cid) :
    ((insertCycleWords db cid ws).cycle_words.filter (fun w => w.cycle_id == cid)).map
      CycleWordRow.position = List.range' 1 ws.length := by
  unfold insertCycleWords
  dsimp only
  rw [List.filter_append]
  have h1 : db.cycle_words.filter (fun w => w.cycle_id == cid) = [] := by
    rw [List.filter_eq_nil_iff]
    intro w hwmem
    simpa using hfresh w hwmem
  have h2 : (ws.enum.map fun p =>
      ({ cycle_id := cid, word_id := p.2.id, position := p.1 + 1 } : CycleWordRow)).filter
        (fun w => w.cycle_id == cid) =
      ws.enum.map fun p =>
        ({ cycle_id := cid, word_id := p.2.id, position := p.1 + 1 } : CycleWordRow) := by
    rw [List.filter_eq_self]
    intro w hw
    obtain ⟨p, hp, hpe⟩ := List.mem_map.mp hw
    rw [← hpe]
    simp
  rw [h1, List.nil_append, h2, List.map_map]
  exact enumFrom_map_pos ws 0

theorem pickNewWords_length (db : Db) (coupleId : ℕ) :
    (pickNewWords db coupleId).length ≤ db.vocab.length ∧
    (pickNewWords db coupleId).length ≤ 5 ∧
    (¬(pickNewWords db coupleId).length < 5 → 5 ≤ db.vocab.length) := by
  unfold pickNewWords
  dsimp only
  rw [List.length_take, length_orderBy]
  have hle : (if (recentWordIds db coupleId).isEmpty then db.vocab
      else db.vocab.filter (fun v => !((recentWordIds db coupleId).contains v.id))).length ≤
      db.vocab.length := by
    split_ifs
    · exact le_refl _
    · exact List.length_filter_le _ _
  refine ⟨?_, ?_, ?_⟩ <;> omega

/-- Core of the C5 argument: on success, the word assignments of the inserted
cycle have positions exactly 1..min(5, pool size). -/
theorem createNewCycleCore_assignments (db2 : Db) (coupleId : ℕ) (cid : ℕ)
    (hfresh : ∀ w ∈ db2.cycle_words, w.cycle_id ≠ cid)
    (cid2 : ℕ) (hs : (createNewCycleCore db2 coupleId cid).2 = some cid2) :
    ((createNewCycleCore db2 coupleId cid).1.cycle_words.filter
        (fun w => w.cycle_id == cid2)).map CycleWordRow.position =
      List.range' 1 (min 5 db2.vocab.length) := by
  obtain ⟨hp1, hp2, hp3⟩ := pickNewWords_length db2 coupleId
  unfold createNewCycleCore at hs ⊢
  dsimp only at hs ⊢
  split_ifs at hs ⊢ with h1 h2
  all_goals dsimp only at hs
  all_goals first
    | exact Option.noConfusion hs
    | (injection hs with hcid
       rw [← hcid, insertCycleWords_positions _ _ _ hfresh]
       first
         | rw [List.length_take]
         | (have h5 : 5 ≤ db2.vocab.length := hp3 h1
            congr 1
            omega))

/-- C5 (amended): whenever cycle creation succeeds on a well-formed store
(every `cycle_words` row references an existing cycle), the new cycle's word
assignments carry positions exactly 1..min(5, vocabulary pool size), in order
and without repetition — exactly 5 whenever at least 5 vocabulary words
exist, fewer when the unfiltered fallback finds a smaller pool. -/
theorem createNewCycle_assignments (db : Db) (coupleId cycleNumber : ℕ) (today : ℤ)
    (hwf : ∀ w ∈ db.cycle_words, w.cycle_id ∈ db.cycles.map CycleRow.id)
    (cid : ℕ) (hs : (createNewCycle db coupleId cycleNumber today).2 = some cid) :
    ((createNewCycle db coupleId cycleNumber today).1.cycle_words.filter
        (fun w => w.cycle_id == cid)).map CycleWordRow.position =
      List.range' 1 (min 5 db.vocab.length) := by
  have hfresh : ∀ w ∈ db.cycle_words, w.cycle_id ≠ freshCycleId db := by
    intro w hw heq
    exact freshCycleId_not_mem db (heq ▸ hwf w hw)
  unfold createNewCycle at hs ⊢
  dsimp only at hs ⊢
  refine createNewCycleCore_assignments _ coupleId (freshCycleId db) ?_ cid hs
  intro w hw
  exact hfresh w hw

/-- C5 counterexample: with a vocabulary pool of 3 words, cycle creation
succeeds through the unfiltered fallback, but the new cycle receives only 3
word assignments, not the 5 the claim asserts. -/
theorem createNewCycle_five_cex :
    (createNewCycle ⟨[], [], [⟨1, 1⟩, ⟨2, 1⟩, ⟨3, 1⟩], []⟩ 7 1 0).2 = some 1 ∧
    ((createNewCycle ⟨[], [], [⟨1, 1⟩, ⟨2, 1⟩, ⟨3, 1⟩], []⟩ 7 1 0).1.cycle_words.filter
      (fun w => w.cycle_id == 1)).length = 3 := by
  decide

/-- C5 witness: on a store with 5 vocabulary words the created cycle gets
positions exactly 1..5. -/
theorem createNewCycle_assignments_witness :
    ((createNewCycle ⟨[], [], [⟨1, 1⟩, ⟨2, 2⟩, ⟨3, 3⟩, ⟨4, 4⟩, ⟨5, 5⟩], []⟩ 7 1 0).1.cycle_words.filter
        (fun w => w.cycle_id == 1)).map CycleWordRow.position = List.range' 1 5 := by
  have h := createNewCycle_assignments ⟨[], [], [⟨1, 1⟩, ⟨2, 2⟩, ⟨3, 3⟩, ⟨4, 4⟩, ⟨5, 5⟩], []⟩ 7 1 0
    (by intro w hw; cases hw) 1 (by decide)
  simpa using h

/-- C6: with an empty vocabulary pool, cycle creation fails (the source
throws and the caller receives no cycle) — but the active cycle row that was
inserted before word selection persists in the store with zero word
assignments, contradicting the claim that no new cycle state persists on
that failure. -/
theorem createNewCycle_emptyPool :
    (createNewCycle ⟨[], [], [], []⟩ 7 1 0).2 = none ∧
    (activeCyclesFor (createNewCycle ⟨[], [], [], []⟩ 7 1 0).1 7).length = 1 ∧
    (createNewCycle ⟨[], [], [], []⟩ 7 1 0).1.cycle_words = [] := by
  decide

/-- C2: an interleaving of two `checkAndCreateNewCycle` calls for the same
pairing key — both reads execute before either write, a valid schedule of
the source's separately awaited statements — leaves TWO active cycles for
the key.  The repository declares no uniqueness invariant and takes no lock,
so concurrent calls can both succeed in creating an active cycle,
contradicting the claim. -/
theorem checkAndCreateNewCycle_race :
    (activeCyclesFor
      (runRace 7 0 [RaceEvent.readA, RaceEvent.readB, RaceEvent.actA, RaceEvent.actB]
        ⟨⟨[], [], [⟨1, 1⟩, ⟨2, 1⟩, ⟨3, 1⟩, ⟨4, 1⟩, ⟨5, 1⟩], []⟩, none, none⟩).db 7).length = 2 := by
  decide

theorem find?_map_keyed (p : DailyStat → Bool) (f : DailyStat → DailyStat)
    (hpf : ∀ s, p (f s) = p s) (l : List DailyStat) (s0 : DailyStat)
    (h : l.find? p = some s0) :
    (l.map fun s => if p s then f s else s).find? p = some (f s0) := by
  induction l with
  | nil => exact Option.noConfusion h
  | cons a l ih =>
    by_cases hpa : p a = true
    · rw [List.find?_cons_of_pos _ hpa] at h
      injection h with h0
      rw [List.map_cons, if_pos hpa, List.find?_cons_of_pos _ (by rw [hpf a]; exact hpa), h0]
    · rw [List.find?_cons_of_neg _ hpa] at h
      rw [List.map_cons, if_neg hpa, List.find?_cons_of_neg _ hpa]
      exact ih h

theorem statFor_updateDailyStats (stats : List DailyStat) (u : ℕ) (t : ℤ) (w pa : ℕ) :
    statFor (updateDailyStats stats u t w pa) u t =
      ((statFor stats u t).1 + w, (statFor stats u t).2.1 + pa,
        decide ((statFor stats u t).1 + w ≥ 5)) := by
  unfold updateDailyStats statFor
  cases hF : stats.find? (fun s => s.user_id == u && s.date == t) with
  | none =>
    dsimp only
    rw [List.find?_append, hF, Option.none_or, List.find?_cons_of_pos _ (by simp)]
    simp
  | some s0 =>
    dsimp only
    have hmap := find?_map_keyed (fun s => s.user_id == u && s.date == t)
      (fun s => { s with
        words_reviewed := s0.words_reviewed + w
        perfect_answers := s0.perfect_answers + pa
        completed_daily_goal := decide (s0.words_reviewed + w ≥ 5) })
      (fun s => rfl) stats s0 hF
    rw [hmap]

theorem insertKeys_mem (rs : List (ℕ × ℕ)) :
    ∀ (acc : List ℕ) (x : ℕ), x ∈ insertKeys acc rs ↔ x ∈ acc ∨ x ∈ rs.map Prod.fst := by
  induction rs with
  | nil =>
    intro acc x
    unfold insertKeys
    simp
  | cons a rest ih =>
    intro acc x
    obtain ⟨w, q⟩ := a
    unfold insertKeys
    rw [ih]
    by_cases hw : w ∈ acc
    · rw [if_pos hw]
      simp only [List.map_cons, List.mem_cons]
      constructor
      · rintro (h | h)
        · exact Or.inl h
        · exact Or.inr (Or.inr h)
      · rintro (h | h | h)
        · exact Or.inl h
        · exact Or.inl (h ▸ hw)
        · exact Or.inr h
    · rw [if_neg hw]
      simp only [List.mem_append, List.mem_singleton, List.map_cons, List.mem_cons]
      tauto

theorem insertKeys_nodup (rs : List (ℕ × ℕ)) :
    ∀ acc : List ℕ, acc.Nodup → (insertKeys acc rs).Nodup := by
  induction rs with
  | nil =>
    intro acc h
    exact h
  | cons a rest ih =>
    intro acc h
    obtain ⟨w, q⟩ := a
    unfold insertKeys
    by_cases hw : w ∈ acc
    · rw [if_pos hw]
      exact ih acc h
    · rw [if_neg hw]
      refine ih _ ?_
      simp [List.nodup_append, h, hw]

theorem sessionWordIds_distinct (results : List (ℕ × ℕ)) :
    (sessionWordIds results).Nodup ∧
    ∀ x, x ∈ sessionWordIds results ↔ x ∈ results.map Prod.fst := by
  unfold sessionWordIds
  refine ⟨insertKeys_nodup results [] List.nodup_nil, ?_⟩
  intro x
  rw [insertKeys_mem]
  simp

/-- C7 (amended): committing a session with N distinct words produces exactly
one progress upsert per distinct word (N of them, N being the length of the
duplicate-free list of the session's word ids), and one DailyStat update for
today in which words-reviewed increases by exactly N (not by activity
count), perfect-answers increases by 0 — `handleComplete` omits the
perfect-answer argument, so the quality-5 count is never added — and
goal-met is set exactly when the day's cumulative words-reviewed reaches at
least 5. -/
theorem commitSession_dailyStat (stats : List DailyStat) (userId : ℕ) (today : ℤ)
    (results : List (ℕ × ℕ)) :
    ((commitSession stats userId today results).2 = (sessionWordIds results).length ∧
      (sessionWordIds results).Nodup ∧
      (∀ x, x ∈ sessionWordIds results ↔ x ∈ results.map Prod.fst)) ∧
    statFor (commitSession stats userId today results).1 userId today =
      ((statFor stats userId today).1 + (sessionWordIds results).length,
       (statFor stats userId today).2.1 + 0,
       decide ((statFor stats userId today).1 + (sessionWordIds results).length ≥ 5)) := by
  have hlen : (wordProgressUpdates results).length = (sessionWordIds results).length := by
    unfold wordProgressUpdates
    rw [List.length_map]
  constructor
  · exact ⟨hlen, (sessionWordIds_distinct results).1, (sessionWordIds_distinct results).2⟩
  · unfold commitSession
    dsimp only
    rw [hlen, statFor_updateDailyStats]

/-- C7 counterexample: committing a session with a single activity of
quality 5 leaves perfect-answers at 0, although one per-activity quality-5
result was produced — the claim says it increases by that count (1). -/
theorem commitSession_perfect_cex :
    statFor (commitSession [] 1 0 [(10, 5)]).1 1 0 = (1, 0, false) ∧
    (([((10 : ℕ), (5 : ℕ))]).filter (fun r => r.2 == 5)).length = 1 := by
  decide

/-- C8: MoodScorer divides by zero.  With wordsStudiedToday = 0 and
targetWordsPerDay = 0 the solo computation evaluates 0/0 = NaN, which
propagates through every later step (JS `Math.min`, `Math.max` and
`Math.round` all map NaN to NaN), so `calculateCatHappiness` returns NaN
rather than an integer in [0, 100]; the paired mode has the same failure. -/
theorem calculateCatHappiness_zeroTarget_nan :
    calculateCatHappiness ⟨.fin 0, .fin 0, .fin 0⟩ none = JsNum.nan ∧
    calculateCatHappiness ⟨.fin 0, .fin 0, .fin 0⟩ (some ⟨.fin 5, .fin 5, .fin 3⟩) = JsNum.nan := by
  constructor
  · norm_num [calculateCatHappiness, calculateSoloHappiness, jdiv, jmul, jadd, jmin, jmax,
      jge, jround]
  · norm_num [calculateCatHappiness, calculatePartnerHappiness, jdiv, jmul, jadd, jmin, jmax,
      jle, jsub, jneg, jabs, jround]

/-- C9: on three consecutive goal-met days ending today, the streak loop of
`getUserStats` returns currentStreak = 2, while the count of consecutive
goal-met calendar days ending at today — the first-principles definition the
spec asks for — is 3: the loop assigns currentStreak only on rows at most
one day old, capping the reported streak at 2. -/
theorem getUserStats_streak_mismatch :
    (getUserStatsStreaks 100 [⟨1, 100, 5, 0, true⟩, ⟨1, 99, 5, 0, true⟩, ⟨1, 98, 5, 0, true⟩]).1 = 2 ∧
    specCurrentStreak 100 [⟨1, 100, 5, 0, true⟩, ⟨1, 99, 5, 0, true⟩, ⟨1, 98, 5, 0, true⟩] = 3 := by
  decide

/-- C3 (amended): for every prior state, quality < 3 resets the returned
repetitions to 0 and the interval to 1; otherwise the returned repetitions is
priorRepetitions + 1 and the returned interval is 1 when the new count is 1,
6 when it is 2, and otherwise round(priorInterval * priorEase) clamped into
[1, 365] — the algorithm's final clamp applies to this branch too, which the
claim's wording omits. -/
theorem calculateSM2_step_rule (q ce ci cr : ℚ) :
    (q < 3 → (calculateSM2 q ce ci cr).repetitions = 0 ∧
      (calculateSM2 q ce ci cr).interval = 1) ∧
    (3 ≤ q → (calculateSM2 q ce ci cr).repetitions = cr + 1 ∧
      (calculateSM2 q ce ci cr).interval =
        (if cr = 0 then 1 else if cr = 1 then 6
         else min 365 (max 1 ((round (ci * ce) : ℤ) : ℚ)))) := by
  unfold calculateSM2
  dsimp only
  constructor
  · intro h3
    rw [if_pos ((calcQ_lt3_iff q).mpr h3)]
    refine ⟨rfl, ?_⟩
    rw [clampInterval_eq]
    norm_num
  · intro h3
    rw [if_neg (by rw [calcQ_lt3_iff]; linarith)]
    refine ⟨rfl, ?_⟩
    rw [clampInterval_eq]
    split_ifs
    · norm_num
    · norm_num
    · rfl

/-- C3 counterexample: at quality 4 with prior ease 2.5, prior interval 365
and prior repetitions 5 — all within their valid ranges — the returned
interval is 365 and not round(365 * 2.5) = 913 as the claim reads. -/
theorem calculateSM2_interval_cap_cex :
    (calculateSM2 4 (5/2) 365 5).interval = 365 ∧
    (calculateSM2 4 (5/2) 365 5).interval ≠ ((round ((365 : ℚ) * (5/2)) : ℤ) : ℚ) := by
  norm_num [calculateSM2, clampInterval, round_eq]

/-- C3 witness: the claim's own example — quality 4, prior ease 2.0, prior
interval 6, prior repetitions 2 — yields repetitions 3 and interval 12. -/
theorem calculateSM2_step_rule_witness :
    (calculateSM2 4 2 6 2).repetitions = 2 + 1 ∧ (calculateSM2 4 2 6 2).interval = 12 := by
  have h := (calculateSM2_step_rule 4 2 6 2).2 (by norm_num)
  refine ⟨h.1, ?_⟩
  rw [h.2]
  norm_num [round_eq]

/-- C4: for every prior ease factor in [1.3, 2.5], prior interval in
[1, 365], non-negative repetition count and quality score in [0, 5], the
ease factor returned by calculateSM2 lies within [1.3, 2.5] — including
after the final rounding to two decimal places — and the returned interval
lies within [1, 365]. -/
theorem calculateSM2_bounds (q ce ci cr : ℚ) (hce1 : 13/10 ≤ ce) (hce2 : ce ≤ 5/2)
    (hci1 : 1 ≤ ci) (hci2 : ci ≤ 365) (hcr : 0 ≤ cr) (hq1 : 0 ≤ q) (hq2 : q ≤ 5) :
    (13/10 ≤ (calculateSM2 q ce ci cr).easeFactor ∧
      (calculateSM2 q ce ci cr).easeFactor ≤ 5/2) ∧
    (1 ≤ (calculateSM2 q ce ci cr).interval ∧
      (calculateSM2 q ce ci cr).interval ≤ 365) := by
  unfold calculateSM2
  dsimp only
  constructor
  · have hc := clampEase_bounds (sm2Ease (if q < 0 ∨ q > 5 then max 0 (min 5 q) else q) ce)
    have hb := roundTo2_scaled_bounds 130 250
      (clampEase (sm2Ease (if q < 0 ∨ q > 5 then max 0 (min 5 q) else q) ce))
      (by push_cast; linarith [hc.1]) (by push_cast; linarith [hc.2])
    push_cast at hb
    constructor <;> linarith [hb.1, hb.2]
  · exact clampInterval_bounds _

/-- C4 witness: the bounds at quality 5, ease 2.5, interval 1,
repetitions 0. -/
theorem calculateSM2_bounds_witness :
    (13/10 ≤ (calculateSM2 5 (5/2) 1 0).easeFactor ∧
      (calculateSM2 5 (5/2) 1 0).easeFactor ≤ 5/2) ∧
    (1 ≤ (calculateSM2 5 (5/2) 1 0).interval ∧ (calculateSM2 5 (5/2) 1 0).interval ≤ 365) :=
  calculateSM2_bounds 5 (5/2) 1 0 (by norm_num) (by norm_num) (by norm_num) (by norm_num)
    (by norm_num) (by norm_num) (by norm_num)

/-- C10: for a fixed prior ease factor, interval and repetition count, the
ease factor returned by calculateSM2 is monotone non-decreasing in the
quality score over [0, 5]. -/
theorem calculateSM2_ease_monotone (ce ci cr q1 q2 : ℚ) (h0 : 0 ≤ q1) (h12 : q1 ≤ q2)
    (h5 : q2 ≤ 5) :
    (calculateSM2 q1 ce ci cr).easeFactor ≤ (calculateSM2 q2 ce ci cr).easeFactor := by
  unfold calculateSM2
  dsimp only
  rw [if_neg (by push_neg; constructor <;> linarith),
    if_neg (by push_neg; constructor <;> linarith)]
  exact roundTo2_mono (clampEase_mono (sm2Ease_mono h12 h5))

/-- C10 witness: quality 2 yields an ease factor no larger than quality 4
does, at ease 2.5, interval 6, repetitions 2. -/
theorem calculateSM2_ease_monotone_witness :
    (calculateSM2 2 (5/2) 6 2).easeFactor ≤ (calculateSM2 4 (5/2) 6 2).easeFactor :=
  calculateSM2_ease_monotone (5/2) 6 2 2 4 (by norm_num) (by norm_num) (by norm_num)

/-- C1: DueSelector dueness.  Provided every progress record carries a next
review date (the engine always writes one), a cycle word is selected as due
if and only if no progress record exists for it, or its next review date,
compared as a calendar day normalized to midnight, is at most today's; in
particular a word whose next due date falls on today's calendar day is due,
and one whose next due date falls on the following calendar day is not. -/
theorem getWordsForReview_due_iff (cycleWords : List VocabularyWord)
    (progress : List UserProgress) (today : ℕ) (word : VocabularyWord)
    (hw : word ∈ cycleWords)
    (hdates : ∀ p ∈ progress, p.next_review_date ≠ none) :
    (word ∈ getWordsForReview cycleWords progress today ↔
      (progress.find? (fun p => p.word_id == word.id) = none ∨
       ∃ p d, progress.find? (fun p => p.word_id == word.id) = some p ∧
         p.next_review_date = some d ∧ dayOf d ≤ dayOf today)) ∧
    (∀ p d, progress.find? (fun p => p.word_id == word.id) = some p →
       p.next_review_date = some d → dayOf d = dayOf today →
       word ∈ getWordsForReview cycleWords progress today) ∧
    (∀ p d, progress.find? (fun p => p.word_id == word.id) = some p →
       p.next_review_date = some d → dayOf d = dayOf today + 1 →
       word ∉ getWordsForReview cycleWords progress today) := by
  have key : word ∈ getWordsForReview cycleWords progress today ↔
      (progress.find? (fun p => p.word_id == word.id) = none ∨
       ∃ p d, progress.find? (fun p => p.word_id == word.id) = some p ∧
         p.next_review_date = some d ∧ dayOf d ≤ dayOf today) := by
    unfold getWordsForReview
    rw [List.mem_filter]
    cases hP : progress.find? (fun p => p.word_id == word.id) with
    | none => simp [hw, hP]
    | some wp =>
      cases hd : wp.next_review_date with
      | none => exact absurd hd (hdates wp (List.mem_of_find?_eq_some hP))
      | some d =>
        simp only [hw, true_and, hP, hd, isDueForReview, decide_eq_true_eq,
          Option.some.injEq, reduceCtorEq, false_or]
        rw [normalizeUTC_le_iff]
        constructor
        · intro h
          exact ⟨wp, d, rfl, hd, h⟩
        · rintro ⟨p, d0, hp, hd0, hle⟩
          subst hp
          rw [hd] at hd0
          injection hd0 with hdd
          rw [hdd]
          exact hle
  refine ⟨key, ?_, ?_⟩
  · intro p d hp hd heq
    exact key.mpr (Or.inr ⟨p, d, hp, hd, by omega⟩)
  · intro p d hp hd heq hmem
    rcases key.mp hmem with h | ⟨p0, d0, hp0, hd0, hle⟩
    · rw [hp] at h
      exact Option.noConfusion h
    · rw [hp] at hp0
      have hpp : p = p0 := by injection hp0
      rw [← hpp, hd] at hd0
      have hdd : d = d0 := by injection hd0
      rw [← hdd] at hle
      omega

/-- C1 witness: a word whose next review date equals today's calendar day is
selected, at a concrete input. -/
theorem getWordsForReview_due_iff_witness :
    (⟨1, 1⟩ : VocabularyWord) ∈ getWordsForReview [⟨1, 1⟩]
      [⟨1, some (86400000 * 3), 2⟩] (86400000 * 3 + 5) := by
  have h := (getWordsForReview_due_iff [⟨1, 1⟩] [⟨1, some (86400000 * 3), 2⟩]
    (86400000 * 3 + 5) ⟨1, 1⟩ (by decide) (by decide)).2.1
  exact h ⟨1, some (86400000 * 3), 2⟩ (86400000 * 3) (by decide) (by decide) (by decide)
